import Mathlib

/-!
Shallow embedding of the quick-research-ai retrieval pipeline.

The JavaScript sources embedded here:
  * `backend/lib/redisClient.js`   — the vector index (`upsertVector`,
    `queryTopK`, `cosineSimilarity`, `deleteVector`); the Redis key/value
    store holding the `doc:*` keys is modelled as an association list
    (`Store`), new keys appended (insertion order), `SET` on an existing
    key replacing its value in place.  Redis `KEYS` guarantees no
    enumeration order, so statements that depend on the order in which
    `queryTopK` scans the keys quantify over an arbitrary permutation of
    the keyspace.
  * `backend/lib/ingest.js`        — `ingestDocument`.
  * `backend/lib/query.js`         — `queryKnowledge`.
  * `backend/lib/lightningClient.js` — `createEmbedding` / `generateMockEmbedding`.
  * `backend/server.js`            — the `POST /api/ingest` request handler.

JavaScript numbers are modelled as real numbers (`ℝ`); strings as Lean
`String` (one `Char` per UTF-16 code unit, adequate for BMP text);
`async`/`await` sequencing as explicit state passing; a `throw` caught by
the surrounding `try`/`catch` as `Except String`.
-/

namespace QuickResearch

/-! ### JavaScript string primitives used by the pipeline -/

/-- JavaScript `a || b` on strings: the empty string is falsy. -/
def jsOr (a b : String) : String :=
  if a = "" then b else a

/-- JavaScript `s.substring(0, n)`. -/
def jsSubstringTo (s : String) (n : Nat) : String :=
  String.mk (s.toList.take n)

/-- JavaScript `s.split('\n')[0]`: the characters before the first newline. -/
def jsSplitHead (s : String) : String :=
  String.mk (s.toList.takeWhile (fun c => c ≠ '\n'))

/-- The WhiteSpace / LineTerminator set trimmed by JavaScript `String.prototype.trim`. -/
def isJsWhitespace (c : Char) : Bool :=
  c = ' ' || c = '\t' || c = '\n' || c = '\r' ||
  c.toNat = 0x0b || c.toNat = 0x0c || c.toNat = 0xa0 ||
  c.toNat = 0x1680 || (0x2000 ≤ c.toNat && c.toNat ≤ 0x200a) ||
  c.toNat = 0x2028 || c.toNat = 0x2029 || c.toNat = 0x202f ||
  c.toNat = 0x205f || c.toNat = 0x3000 || c.toNat = 0xfeff

/-- JavaScript `s.trim()`. -/
def jsTrim (s : String) : String :=
  String.mk (((s.toList.dropWhile isJsWhitespace).reverse.dropWhile isJsWhitespace).reverse)

/-! ### redisClient.js — data model

`upsertVector` stores under key `doc:${id}` the JSON value
`{vector, metadata, timestamp}`; `queryTopK` enumerates all `doc:*` keys.
The store is modelled as an association list keyed by the document id,
kept in insertion order. -/

/-- The metadata object passed by `ingest.js` to `upsertVector`
(`{title, source, snippet}`). -/
structure Meta where
  title : String
  source : String
  snippet : String
deriving Repr, DecidableEq

/-- The JSON value stored by `upsertVector` (redisClient.js lines 207-211):
`{vector, metadata, timestamp: Date.now()}`. -/
structure StoredVal where
  vector : List ℝ
  metadata : Meta
  timestamp : Nat

/-- The Redis `doc:*` keyspace: an association list keyed by the document
id.  `upsertVector` appends new keys, so the list order records the
insertion order of the keyspace.  Redis `KEYS` guarantees *no* enumeration
order, so the sequence `client.keys('doc:*')` hands to the scan is an
arbitrary permutation of this list; theorems whose conclusions depend on
the scan order quantify over that permutation (see the C2 correction),
while the other claims use only order-insensitive consequences. -/
abbrev Store := List (String × StoredVal)

/-- `client.set key value`: replace the value of an existing key in place,
append a new key at the end. -/
def setKey (st : Store) (id : String) (v : StoredVal) : Store :=
  if st.any (fun p => p.1 = id) then
    st.map (fun p => if p.1 = id then (id, v) else p)
  else
    st ++ [(id, v)]

/-- Return value of `upsertVector`: `{ id, key }`. -/
structure UpsertResult where
  id : String
  key : String
deriving Repr, DecidableEq

/-- redisClient.js lines 202-221, `upsertVector(id, vector, metadata)`:
serialize `{vector, metadata, timestamp}` and `SET` it under `doc:${id}`.
There is no dimension check of any kind; the only failure mode in the
source is a Redis transport error, which the model treats as absent.
`now` stands for `Date.now()`. -/
def upsertVector (st : Store) (id : String) (vector : List ℝ) (metadata : Meta)
    (now : Nat) : UpsertResult × Store :=
  ({ id := id, key := "doc:" ++ id }, setKey st id ⟨vector, metadata, now⟩)

/-- redisClient.js lines 277-287, `deleteVector(id)`. -/
def deleteVector (st : Store) (id : String) : Store :=
  st.filter (fun p => !(p.1 = id : Bool))

/-! ### redisClient.js — cosine similarity and top-K query -/

/-- The accumulation loop of `cosineSimilarity` (lines 186-190):
`Σ vecA[i] * vecB[i]` over the common indices.  For the `dotProduct`,
`magA` and `magB` accumulators the two argument lists coincide or have
equal length, so the `zipWith` truncation is exact. -/
def sumMul (a b : List ℝ) : ℝ :=
  (List.zipWith (fun x y => x * y) a b).sum

/-- The value produced by `cosineSimilarity` on same-length vectors
(lines 182-193): `magnitude = sqrt(magA) * sqrt(magB)`;
`magnitude === 0 ? 0 : dotProduct / magnitude`. -/
noncomputable def cosSimVal (a b : List ℝ) : ℝ :=
  let magnitude := Real.sqrt (sumMul a a) * Real.sqrt (sumMul b b)
  if magnitude = 0 then 0 else sumMul a b / magnitude

/-- redisClient.js lines 177-194, `cosineSimilarity(vecA, vecB)`:
throws `'Vectors must have same length'` when the lengths differ. -/
noncomputable def cosineSimilarity (vecA vecB : List ℝ) : Except String ℝ :=
  if vecA.length ≠ vecB.length then
    .error "Vectors must have same length"
  else
    .ok (cosSimVal vecA vecB)

/-- One element of the `similarities` array built by `queryTopK`
(lines 254-258): `{ id: key.replace('doc:',''), score, metadata }`. -/
structure Hit where
  id : String
  score : ℝ
  metadata : Meta

/-- The ordering used by `similarities.sort((a, b) => b.score - a.score)`:
descending by score.  ECMAScript `Array.prototype.sort` is stable, so the
call is modelled by Mathlib's stable `List.insertionSort` over this
relation. -/
def hitDescOrder (a b : Hit) : Prop := b.score ≤ a.score

noncomputable instance : DecidableRel hitDescOrder :=
  fun a b => Real.decidableLE b.score a.score

instance : IsTotal Hit hitDescOrder := ⟨fun a b => le_total b.score a.score⟩

instance : IsTrans Hit hitDescOrder := ⟨fun _ _ _ h1 h2 => le_trans h2 h1⟩

/-- The scoring loop of `queryTopK` (lines 247-259): score every stored
record against the query, in the enumeration order of the store; the
`cosineSimilarity` throw on the first length mismatch aborts the loop. -/
noncomputable def scoreAll (q : List ℝ) : Store → Except String (List Hit)
  | [] => .ok []
  | (id, v) :: rest =>
    match cosineSimilarity q v.vector with
    | .error e => .error e
    | .ok s =>
      match scoreAll q rest with
      | .error e => .error e
      | .ok hs => .ok ({ id := id, score := s, metadata := v.metadata } :: hs)

/-- The scored records in store (= insertion) order, when every stored
vector matches the query length. -/
noncomputable def scoredHitsList (st : Store) (q : List ℝ) : List Hit :=
  st.map (fun p => { id := p.1, score := cosSimVal q p.2.vector, metadata := p.2.metadata })

/-- redisClient.js lines 232-272, `queryTopK(queryVector, k)`:
empty keyspace short-circuits to `[]`; otherwise score all records in the
order the `client.keys('doc:*')` enumeration presents them, sort
descending by score (stable), `slice(0, k)`.  The first argument is that
enumerated key sequence — some permutation of the keyspace, since Redis
`KEYS` fixes no order.  A throw inside the `try` is rethrown as
`'Failed to query vectors: ' + message`. -/
noncomputable def queryTopK (st : Store) (queryVector : List ℝ) (k : Nat) :
    Except String (List Hit) :=
  if st.isEmpty then
    .ok []
  else
    match scoreAll queryVector st with
    | .error e => .error ("Failed to query vectors: " ++ e)
    | .ok similarities => .ok ((similarities.insertionSort hitDescOrder).take k)

/-! ### sanityClient.js / query.js — the query pipeline

The Sanity document store is an external service; inside the pipeline it
is only reached through `getDocument(id)`.  A lookup that throws, or that
resolves to a document the subsequent field accesses blow up on, lands in
the same `catch` branch, so the collaborator is modelled as
`String → Option SanityDoc`. -/

/-- The fields of a stored research document read back by `query.js`
(`fullDoc.contentSnippet`, `fullDoc.fullText`, `fullDoc.title`).  A field
that is JS-`undefined` is modelled as the (falsy) empty string. -/
structure SanityDoc where
  title : String
  contentSnippet : String
  fullText : String
deriving Repr, DecidableEq

/-- One element of the `contexts` array of `queryKnowledge`
(query.js lines 104-121): `{ text, score, title }`. -/
structure Context where
  text : String
  score : ℝ
  title : String

/-- One element of the public result (`contexts.map(c => ({text, score}))`,
query.js line 145). -/
structure CtxOut where
  text : String
  score : ℝ

/-- The result object of `queryKnowledge`. -/
structure QueryResult where
  answer : String
  contexts : List CtxOut

/-- query.js lines 104-121: one loop iteration.  `getDocument` succeeding
gives `text = fullDoc.contentSnippet || fullDoc.fullText?.substring(0,500)
|| 'No content'`; the `catch` branch builds the context from the hit's own
stored metadata. -/
def buildContext (getDoc : String → Option SanityDoc) (doc : Hit) : Context :=
  match getDoc doc.id with
  | some fullDoc =>
    { text := jsOr fullDoc.contentSnippet (jsOr (jsSubstringTo fullDoc.fullText 500) "No content")
      score := doc.score
      title := fullDoc.title }
  | none =>
    { text := jsOr doc.metadata.snippet "Content unavailable"
      score := doc.score
      title := jsOr doc.metadata.title "Untitled" }

/-- The whole `for (const doc of similarDocs)` loop: exactly one `push`
per iteration, on both the success and the `catch` path. -/
def buildContexts (getDoc : String → Option SanityDoc) (hits : List Hit) : List Context :=
  hits.map (buildContext getDoc)

/-- query.js lines 124-135: the prompt assembled from the contexts and the
question.  `fmt` stands for the float formatting `score.toFixed(3)`. -/
def buildPrompt (fmt : ℝ → String) (question : String) (contexts : List Context) : String :=
  let contextText := String.intercalate "\n\n"
    ((contexts.enum.map (fun ci =>
      "Context " ++ toString (ci.1 + 1) ++ " (relevance: " ++ fmt ci.2.score ++ "):\n" ++ ci.2.text)))
  "You are a helpful research assistant. Answer the user's question based on the provided contexts.\n\nContext:\n"
    ++ contextText ++ "\n\nQuestion: " ++ question
    ++ "\n\nProvide a clear, concise answer based on the contexts above. If the contexts don't contain enough information, say so."

/-- query.js lines 81-152, `queryKnowledge(question, topK)`.
`createEmbedding` and `generateAnswer` fall back internally to mocks and
never throw (lightningClient.js lines 66-70 and 114-118), so they enter as
total functions `embedF` and `genF`; `getDoc` is the fallible Sanity
lookup.  The only throw reaching the outer `catch` comes from `queryTopK`,
rethrown as `'Failed to process query: ' + message`. -/
noncomputable def queryKnowledge (st : Store) (embedF : String → List ℝ)
    (getDoc : String → Option SanityDoc) (genF : String → String) (fmt : ℝ → String)
    (question : String) (topK : Nat) : Except String QueryResult :=
  let queryEmbedding := embedF question
  match queryTopK st queryEmbedding topK with
  | .error e => .error ("Failed to process query: " ++ e)
  | .ok similarDocs =>
    if similarDocs.isEmpty then
      .ok { answer := "No relevant documents found. Please ingest some documents first."
            contexts := [] }
    else
      let contexts := buildContexts getDoc similarDocs
      let prompt := buildPrompt fmt question contexts
      let answer := genF prompt
      .ok { answer := answer
            contexts := contexts.map (fun c => { text := c.text, score := c.score }) }

/-! ### ingest.js — the ingest pipeline -/

/-- The document handed to `saveDocument` (ingest.js lines 22-27). -/
structure DocIn where
  title : String
  contentSnippet : String
  fullText : String
  source : String
deriving Repr, DecidableEq

/-- The Sanity document store, keyed by the `_id` returned by `create`. -/
abbrev DocStore := List (String × DocIn)

/-- The combined collaborator state threaded through an ingest call. -/
structure SysState where
  docs : DocStore
  vecs : Store

/-- Return value of `ingestDocument` (`{sanityId, redisId, title}`). -/
structure IngestResult where
  sanityId : String
  redisId : String
  title : String
deriving Repr, DecidableEq

/-- Collaborator calls made by `ingestDocument`, in call order, used to
state the temporal contract of the pipeline. -/
inductive Event where
  | saveEv (id : String)
  | embedEv (text : String)
  | upsertEv (id : String) (vector : List ℝ)

/-- ingest.js line 17: `text.split('\n')[0].substring(0, 100) || 'Untitled'`. -/
def derivedTitle (text : String) : String :=
  jsOr (jsSubstringTo (jsSplitHead text) 100) "Untitled"

/-- ingest.js line 18:
`text.substring(0, 200) + (text.length > 200 ? '...' : '')`. -/
def derivedSnippet (text : String) : String :=
  jsSubstringTo text 200 ++ (if 200 < text.toList.length then "..." else "")

/-- ingest.js lines 12-53, `ingestDocument(text, source)`: derive title and
snippet, `saveDocument` (fallible, external Sanity `create`), then
`createEmbedding` (total, mock fallback), then `upsertVector` keyed by the
returned `_id`.  A throw is rethrown as
`'Failed to ingest document: ' + message`.  Besides the result and the
final state the model records the collaborator call sequence. -/
def ingestDocument (saveF : DocIn → DocStore → Except String (String × DocStore))
    (embedF : String → List ℝ) (now : Nat) (st : SysState)
    (text : String) (source : String) :
    Except String (IngestResult × SysState × List Event) :=
  let title := derivedTitle text
  let contentSnippet := derivedSnippet text
  match saveF ⟨title, contentSnippet, text, source⟩ st.docs with
  | .error e => .error ("Failed to ingest document: " ++ e)
  | .ok (sid, docs') =>
    let embedding := embedF text
    let r := upsertVector st.vecs sid embedding ⟨title, source, contentSnippet⟩ now
    .ok (⟨sid, r.1.id, title⟩, ⟨docs', r.2⟩,
         [Event.saveEv sid, Event.embedEv text, Event.upsertEv sid embedding])

/-! ### server.js — the POST /api/ingest handler -/

/-- The request forms the handler distinguishes: an uploaded file (the
text already extracted from the PDF, or the UTF-8 text of a `.txt`), a
pasted `req.body.text`, or neither. -/
inductive IngestReq where
  | file (name : String) (mimetype : String) (text : String)
  | textBody (text : String)
  | nothing

/-- The HTTP responses of the handler. -/
inductive HttpResp where
  | badRequest (msg : String)
  | serverError (msg : String)
  | ingestSuccess (sanityId redisId : String)
deriving Repr, DecidableEq

/-- server.js lines 56-70: the tail of the handler shared by both input
paths — the `!text.trim()` guard and the `ingestDocument` call. -/
def handleIngestText (saveF : DocIn → DocStore → Except String (String × DocStore))
    (embedF : String → List ℝ) (now : Nat) (st : SysState)
    (text : String) (source : String) : HttpResp × SysState :=
  if jsTrim text = "" then
    (.badRequest "Empty content", st)
  else
    match ingestDocument saveF embedF now st text source with
    | .error e => (.serverError e, st)
    | .ok (res, st', _) => (.ingestSuccess res.sanityId res.redisId, st')

/-- server.js lines 30-79, `POST /api/ingest`: a present `req.file` of an
accepted mimetype yields its extracted text; otherwise a *truthy*
`req.body.text` is used (the empty string is falsy and falls through to
the 400 `'No file or text provided'` branch); then the shared tail runs. -/
def ingestHandler (saveF : DocIn → DocStore → Except String (String × DocStore))
    (embedF : String → List ℝ) (now : Nat) (st : SysState)
    (req : IngestReq) : HttpResp × SysState :=
  match req with
  | .file name mimetype text =>
    if mimetype = "application/pdf" ∨ mimetype = "text/plain" then
      handleIngestText saveF embedF now st text name
    else
      (.badRequest "Unsupported file type. Use PDF or TXT.", st)
  | .textBody text =>
    if text = "" then
      (.badRequest "No file or text provided", st)
    else
      handleIngestText saveF embedF now st text "pasted_text"
  | .nothing => (.badRequest "No file or text provided", st)

/-! ### lightningClient.js — the mock embedding -/

/-- JavaScript `ToInt32` (the `hash & hash` wrap and the `<<` operand
coercion): wrap an integer into `[-2^31, 2^31)`. -/
def toInt32 (n : ℤ) : ℤ := (n + 2 ^ 31) % 2 ^ 32 - 2 ^ 31

/-- One step of the hash loop (lightningClient.js lines 131-134):
`hash = ((hash << 5) - hash) + charCode; hash = hash & hash`. -/
def hashStep (h : ℤ) (c : Nat) : ℤ := toInt32 (toInt32 (h * 32) - h + c)

/-- The full hash of the input text (initial value 0). -/
def jsHash (s : String) : ℤ := s.toList.foldl (fun h ch => hashStep h ch.toNat) 0

/-- lightningClient.js line 140, component `i` before normalization:
`Math.sin(seed) * 0.5 + Math.cos(seed * 0.7) * 0.5` with `seed = hash + i`. -/
noncomputable def rawMockComponent (hash : ℤ) (i : Nat) : ℝ :=
  Real.sin ((hash : ℝ) + i) * 0.5 + Real.cos (((hash : ℝ) + i) * 0.7) * 0.5

/-- The 384-component raw vector of `generateMockEmbedding`. -/
noncomputable def rawMockVector (text : String) : List ℝ :=
  (List.range 384).map (rawMockComponent (jsHash text))

/-- lightningClient.js lines 143-145: `vector.reduce((sum, val) => sum + val * val, 0)`. -/
noncomputable def sumSquares (v : List ℝ) : ℝ :=
  v.foldl (fun sum val => sum + val * val) 0

/-- lightningClient.js lines 125-146, `generateMockEmbedding(text)`:
hash the text, build the 384 pseudo-random components, normalize by the
Euclidean magnitude. -/
noncomputable def generateMockEmbedding (text : String) : List ℝ :=
  let vector := rawMockVector text
  let magnitude := Real.sqrt (sumSquares vector)
  vector.map (fun val => val / magnitude)

/-- Whether the embedding provider is in mock mode for a call: no
`LIGHTNING_API_KEY` configured, or the provider call failed
(lightningClient.js lines 41-44 and 66-70). -/
inductive EmbedMode where
  | apiOk (vec : List ℝ)
  | apiFailed
  | noApiKey

/-- lightningClient.js lines 39-71, `createEmbedding(text)`: the provider
result when the call succeeds, `generateMockEmbedding` otherwise. -/
noncomputable def createEmbedding (mode : EmbedMode) (text : String) : List ℝ :=
  match mode with
  | .apiOk vec => vec
  | .apiFailed => generateMockEmbedding text
  | .noApiKey => generateMockEmbedding text

/-- The Euclidean norm of a vector, `sqrt (Σ vᵢ²)` — the spec's `‖v‖`. -/
noncomputable def euclidNorm (v : List ℝ) : ℝ :=
  Real.sqrt ((v.map (fun x => x * x)).sum)

/-! ### Helper lemmas about the store operations -/

lemma map_setVal_of_not_mem (rest : Store) (id : String) (w : StoredVal)
    (h : id ∉ rest.map Prod.fst) :
    rest.map (fun q => if q.1 = id then (id, w) else q) = rest := by
  induction rest with
  | nil => rfl
  | cons p rest ih =>
    simp only [List.map_cons, List.mem_cons, List.map_cons] at h ⊢
    simp only [List.map_cons, List.mem_map] at h
    have hp : ¬ p.1 = id := by
      intro hpe
      exact h (Or.inl hpe.symm)
    rw [if_neg hp, ih]
    intro hmem
    rcases List.mem_map.mp hmem with ⟨q, hq, hqe⟩
    exact h (Or.inr ⟨q, hq, hqe⟩)

lemma setKey_cons_ne (p : String × StoredVal) (rest : Store) (id : String) (w : StoredVal)
    (h : ¬ p.1 = id) :
    setKey (p :: rest) id w = p :: setKey rest id w := by
  unfold setKey
  by_cases hr : rest.any (fun q => q.1 = id)
  · have : (p :: rest).any (fun q => q.1 = id) = true := by
      simp [List.any_cons, hr]
    rw [if_pos this, if_pos hr, List.map_cons, if_neg h]
  · have hc : ((p :: rest).any (fun q => q.1 = id)) = false := by
      simp only [List.any_cons, Bool.or_eq_false_iff]
      exact ⟨decide_eq_false h, Bool.eq_false_iff.mpr hr⟩
    rw [Bool.eq_false_iff] at hc
    rw [if_neg hc, if_neg hr, List.cons_append]

lemma setKey_cons_eq (p : String × StoredVal) (rest : Store) (id : String) (w : StoredVal)
    (h : p.1 = id) (hfresh : id ∉ rest.map Prod.fst) :
    setKey (p :: rest) id w = (id, w) :: rest := by
  unfold setKey
  have hany : (p :: rest).any (fun q => q.1 = id) = true := by
    simp [List.any_cons, h]
  rw [if_pos hany, List.map_cons, if_pos h, map_setVal_of_not_mem rest id w hfresh]

lemma setKey_mem (st : Store) (id : String) (w : StoredVal) :
    (id, w) ∈ setKey st id w := by
  induction st with
  | nil => simp [setKey]
  | cons p rest ih =>
    by_cases h : p.1 = id
    · unfold setKey
      have hany : (p :: rest).any (fun q => q.1 = id) = true := by
        simp [List.any_cons, h]
      rw [if_pos hany, List.map_cons, if_pos h]
      exact List.mem_cons_self _ _
    · rw [setKey_cons_ne p rest id w h]
      exact List.mem_cons_of_mem _ ih

lemma filter_eq_nil_of_not_mem (rest : Store) (id : String)
    (h : id ∉ rest.map Prod.fst) :
    rest.filter (fun q => q.1 = id) = [] := by
  induction rest with
  | nil => rfl
  | cons p rest ih =>
    simp only [List.map_cons, List.mem_cons] at h
    push_neg at h
    rw [List.filter_cons, if_neg]
    · exact ih h.2
    · simp only [decide_eq_true_eq]
      exact fun hc => h.1 hc.symm

lemma setKey_filter_eq (st : Store) (id : String) (w : StoredVal)
    (hnodup : (st.map Prod.fst).Nodup) :
    (setKey st id w).filter (fun q => q.1 = id) = [(id, w)] := by
  induction st with
  | nil => simp [setKey]
  | cons p rest ih =>
    simp only [List.map_cons, List.nodup_cons] at hnodup
    by_cases h : p.1 = id
    · rw [setKey_cons_eq p rest id w h (h ▸ hnodup.1), List.filter_cons, if_pos (by simp),
        filter_eq_nil_of_not_mem rest id (h ▸ hnodup.1)]
    · rw [setKey_cons_ne p rest id w h, List.filter_cons, if_neg]
      · exact ih hnodup.2
      · simp only [decide_eq_true_eq]
        exact h

lemma setKey_filter_ne (st : Store) (id : String) (w : StoredVal) :
    (setKey st id w).filter (fun q => !(q.1 = id : Bool)) =
      st.filter (fun q => !(q.1 = id : Bool)) := by
  unfold setKey
  by_cases hany : st.any (fun q => q.1 = id)
  · rw [if_pos hany]
    induction st with
    | nil => rfl
    | cons p rest ih =>
      simp only [List.map_cons]
      by_cases h : p.1 = id
      · rw [if_pos h, List.filter_cons, List.filter_cons, if_neg (by simp), if_neg (by simp [h])]
        by_cases hr : rest.any (fun q => q.1 = id)
        · exact ih hr
        · rw [map_setVal_of_not_mem rest id w]
          intro hmem
          rcases List.mem_map.mp hmem with ⟨q, hq, hqe⟩
          have : rest.any (fun q => q.1 = id) = true :=
            List.any_eq_true.mpr ⟨q, hq, by simp [hqe]⟩
          exact hr this
      · rw [if_neg h, List.filter_cons, List.filter_cons]
        by_cases hr : rest.any (fun q => q.1 = id)
        · rw [ih hr]
        · rw [map_setVal_of_not_mem rest id w]
          intro hmem
          rcases List.mem_map.mp hmem with ⟨q, hq, hqe⟩
          have : rest.any (fun q => q.1 = id) = true :=
            List.any_eq_true.mpr ⟨q, hq, by simp [hqe]⟩
          exact hr this
  · rw [if_neg hany, List.filter_append]
    simp

lemma setKey_keys_subset (st : Store) (id : String) (w : StoredVal) (x : String)
    (hx : x ∈ (setKey st id w).map Prod.fst) :
    x = id ∨ x ∈ st.map Prod.fst := by
  unfold setKey at hx
  by_cases hany : st.any (fun q => q.1 = id)
  · rw [if_pos hany] at hx
    rcases List.mem_map.mp hx with ⟨q, hq, hqe⟩
    rcases List.mem_map.mp hq with ⟨r, hr, hre⟩
    by_cases hr1 : r.1 = id
    · rw [if_pos hr1] at hre
      left
      rw [← hqe, ← hre]
    · rw [if_neg hr1] at hre
      right
      exact List.mem_map.mpr ⟨r, hr, by rw [← hqe, ← hre]⟩
  · rw [if_neg hany, List.map_append] at hx
    rcases List.mem_append.mp hx with h | h
    · exact Or.inr h
    · left
      simpa using h

lemma setKey_keys_nodup (st : Store) (id : String) (w : StoredVal)
    (hnodup : (st.map Prod.fst).Nodup) :
    ((setKey st id w).map Prod.fst).Nodup := by
  induction st with
  | nil => simp [setKey]
  | cons p rest ih =>
    simp only [List.map_cons, List.nodup_cons] at hnodup
    by_cases h : p.1 = id
    · rw [setKey_cons_eq p rest id w h (h ▸ hnodup.1)]
      simp only [List.map_cons, List.nodup_cons]
      exact ⟨h ▸ hnodup.1, hnodup.2⟩
    · rw [setKey_cons_ne p rest id w h]
      simp only [List.map_cons, List.nodup_cons]
      refine ⟨fun hmem => ?_, ih hnodup.2⟩
      rcases setKey_keys_subset rest id w p.1 hmem with hcase | hcase
      · exact h hcase
      · exact hnodup.1 hcase

/-! ### Helper lemmas about cosine similarity -/

lemma sumMul_self (v : List ℝ) : sumMul v v = (v.map (fun x => x * x)).sum := by
  unfold sumMul
  rw [List.zipWith_same]

lemma euclidNorm_eq_sqrt_sumMul (v : List ℝ) :
    euclidNorm v = Real.sqrt (sumMul v v) := by
  rw [euclidNorm, sumMul_self]

lemma sumMul_self_nonneg (v : List ℝ) : 0 ≤ sumMul v v := by
  rw [sumMul_self]
  apply List.sum_nonneg
  intro x hx
  rcases List.mem_map.mp hx with ⟨y, _, rfl⟩
  exact mul_self_nonneg y

lemma euclidNorm_nonneg (v : List ℝ) : 0 ≤ euclidNorm v :=
  Real.sqrt_nonneg _

lemma euclidNorm_eq_zero_iff (v : List ℝ) : euclidNorm v = 0 ↔ sumMul v v = 0 := by
  rw [euclidNorm_eq_sqrt_sumMul]
  constructor
  · intro h
    have h' := Real.sqrt_eq_zero'.mp h
    have := sumMul_self_nonneg v
    linarith
  · intro h
    rw [h, Real.sqrt_zero]

lemma cosSimVal_eq (a b : List ℝ) :
    cosSimVal a b =
      if euclidNorm a * euclidNorm b = 0 then 0
      else sumMul a b / (euclidNorm a * euclidNorm b) := by
  rw [cosSimVal, euclidNorm_eq_sqrt_sumMul, euclidNorm_eq_sqrt_sumMul]

lemma cosineSimilarity_ok (a b : List ℝ) (h : a.length = b.length) :
    cosineSimilarity a b = .ok (cosSimVal a b) := by
  rw [cosineSimilarity, if_neg (by simpa using h)]

/-- Cauchy-Schwarz for the pipeline's list dot product, by induction on the
two lists. -/
lemma sumMul_sq_le (a b : List ℝ) :
    sumMul a b ^ 2 ≤ sumMul a a * sumMul b b := by
  induction a generalizing b with
  | nil => simp [sumMul]
  | cons x a ih =>
    cases b with
    | nil => simp [sumMul]
    | cons y b =>
      have h := ih b
      have hA := sumMul_self_nonneg a
      have hB := sumMul_self_nonneg b
      have hcons : ∀ (u : ℝ) (us : List ℝ) (v : ℝ) (vs : List ℝ),
          sumMul (u :: us) (v :: vs) = u * v + sumMul us vs := by
        intro u us v vs
        simp [sumMul]
      rw [hcons, hcons, hcons]
      by_cases hB0 : sumMul b b = 0
      · have hd : sumMul a b = 0 := by
          have h' := h
          rw [hB0, mul_zero] at h'
          have := pow_eq_zero_iff (n := 2) (by norm_num) |>.mp (le_antisymm h' (sq_nonneg _))
          exact this
        rw [hB0, hd]
        nlinarith [sq_nonneg x, sq_nonneg y, mul_self_nonneg (x * y)]
      · have hBpos : 0 < sumMul b b := lt_of_le_of_ne hB (Ne.symm hB0)
        nlinarith [sq_nonneg (x * sumMul b b - y * sumMul a b), h, hBpos, hA,
          mul_nonneg hA hB, sq_nonneg y]

/-- The similarity score always lies in `[-1, 1]`. -/
lemma cosSimVal_mem_Icc (a b : List ℝ) : cosSimVal a b ∈ Set.Icc (-1 : ℝ) 1 := by
  rw [cosSimVal_eq]
  by_cases h : euclidNorm a * euclidNorm b = 0
  · rw [if_pos h]
    constructor <;> norm_num
  · rw [if_neg h]
    have hna := euclidNorm_nonneg a
    have hnb := euclidNorm_nonneg b
    have hpos : 0 < euclidNorm a * euclidNorm b :=
      lt_of_le_of_ne (mul_nonneg hna hnb) (Ne.symm h)
    have hsq : (sumMul a b) ^ 2 ≤ (euclidNorm a * euclidNorm b) ^ 2 := by
      have : (euclidNorm a * euclidNorm b) ^ 2 = sumMul a a * sumMul b b := by
        rw [mul_pow, euclidNorm_eq_sqrt_sumMul, euclidNorm_eq_sqrt_sumMul,
          Real.sq_sqrt (sumMul_self_nonneg a), Real.sq_sqrt (sumMul_self_nonneg b)]
      rw [this]
      exact sumMul_sq_le a b
    have habs : |sumMul a b| ≤ euclidNorm a * euclidNorm b := by
      have h1 : |sumMul a b| = Real.sqrt (sumMul a b ^ 2) := (Real.sqrt_sq_eq_abs _).symm
      have h2 : |euclidNorm a * euclidNorm b| = Real.sqrt ((euclidNorm a * euclidNorm b) ^ 2) :=
        (Real.sqrt_sq_eq_abs _).symm
      rw [h1, ← abs_of_pos hpos, h2]
      exact Real.sqrt_le_sqrt hsq
    rw [abs_le] at habs
    constructor
    · rw [le_div_iff₀ hpos]
      linarith [habs.1]
    · rw [div_le_iff₀ hpos]
      linarith [habs.2]

/-- Claim C8 (confirmed): on equal-length vectors `cosineSimilarity`
succeeds, its score is `dot(q,v) / (‖q‖ * ‖v‖)` when both Euclidean norms
are nonzero, and exactly `0` when either norm is zero — the guard on the
product of the magnitudes coincides with the either-norm-zero condition,
so the division is never taken with a zero denominator. -/
theorem cosineSimilarity_spec (q v : List ℝ) (hlen : q.length = v.length) :
    cosineSimilarity q v = .ok (cosSimVal q v) ∧
    (euclidNorm q ≠ 0 → euclidNorm v ≠ 0 →
      cosSimVal q v = sumMul q v / (euclidNorm q * euclidNorm v)) ∧
    ((euclidNorm q = 0 ∨ euclidNorm v = 0) → cosSimVal q v = 0) := by
  refine ⟨cosineSimilarity_ok q v hlen, ?_, ?_⟩
  · intro hq hv
    rw [cosSimVal_eq, if_neg (mul_ne_zero hq hv)]
  · intro h
    rw [cosSimVal_eq, if_pos]
    rcases h with h | h
    · rw [h, zero_mul]
    · rw [h, mul_zero]

/-- Witness for C8 at the concrete pair `q = [1]`, `v = [1]`. -/
theorem cosineSimilarity_spec_witness :
    cosineSimilarity [(1 : ℝ)] [(1 : ℝ)] = .ok (cosSimVal [(1 : ℝ)] [(1 : ℝ)]) ∧
    (euclidNorm [(1 : ℝ)] ≠ 0 → euclidNorm [(1 : ℝ)] ≠ 0 →
      cosSimVal [(1 : ℝ)] [(1 : ℝ)] =
        sumMul [(1 : ℝ)] [(1 : ℝ)] / (euclidNorm [(1 : ℝ)] * euclidNorm [(1 : ℝ)])) ∧
    ((euclidNorm [(1 : ℝ)] = 0 ∨ euclidNorm [(1 : ℝ)] = 0) →
      cosSimVal [(1 : ℝ)] [(1 : ℝ)] = 0) :=
  cosineSimilarity_spec [(1 : ℝ)] [(1 : ℝ)] rfl

/-- Claim C9 (confirmed): the derived title is the first line of the text
truncated to 100 characters, `"Untitled"` when that first line is empty;
the derived snippet is the whole text when it has at most 200 characters,
and its first 200 characters with the `"..."` marker exactly when it is
longer. -/
theorem title_snippet_derivation (text : String) :
    derivedTitle text =
      (if text.toList.takeWhile (fun c => c ≠ '\n') = [] then "Untitled"
       else String.mk ((text.toList.takeWhile (fun c => c ≠ '\n')).take 100)) ∧
    derivedSnippet text =
      (if text.toList.length ≤ 200 then text
       else String.mk (text.toList.take 200) ++ "...") := by
  constructor
  · rw [derivedTitle, jsOr, jsSubstringTo, jsSplitHead]
    have hdata : (String.mk (text.toList.takeWhile fun c => c ≠ '\n')).toList =
        text.toList.takeWhile (fun c => c ≠ '\n') := rfl
    rw [hdata]
    by_cases h : text.toList.takeWhile (fun c => c ≠ '\n') = []
    · have hcond : String.mk ((text.toList.takeWhile fun c => c ≠ '\n').take 100) = "" := by
        rw [h]
        decide
      rw [if_pos hcond, if_pos h]
    · have hcond : ¬ String.mk ((text.toList.takeWhile fun c => c ≠ '\n').take 100) = "" := by
        intro hc
        have hc2 : (text.toList.takeWhile fun c => c ≠ '\n').take 100 = [] := by
          have := congrArg String.data hc
          simpa using this
        rcases List.take_eq_nil_iff.mp hc2 with h100 | hnil
        · exact absurd h100 (by norm_num)
        · exact h hnil
      rw [if_neg hcond, if_neg h]
  · rw [derivedSnippet, jsSubstringTo]
    by_cases h : 200 < text.toList.length
    · rw [if_pos h, if_neg (Nat.not_le.mpr h)]
    · rw [if_neg h, if_pos (Nat.not_lt.mp h)]
      have htake : text.toList.take 200 = text.toList :=
        List.take_of_length_le (Nat.not_lt.mp h)
      rw [htake]
      have hmk : String.mk text.toList = text := rfl
      rw [hmk]
      simp

/-! ### Claims C1 and C3: the upsert/search contracts -/

lemma scoredHitsList_filter_id (st : Store) (q : List ℝ) (id : String) :
    (scoredHitsList st q).filter (fun h => h.id = id) =
      (st.filter (fun p => p.1 = id)).map
        (fun p => { id := p.1, score := cosSimVal q p.2.vector, metadata := p.2.metadata }) := by
  unfold scoredHitsList
  induction st with
  | nil => rfl
  | cons p rest ih =>
    rw [List.map_cons, List.filter_cons, List.filter_cons]
    by_cases h : p.1 = id
    · rw [if_pos (by simpa using h), if_pos (by simpa using h), List.map_cons, ih]
    · rw [if_neg (by simpa using h), if_neg (by simpa using h), ih]

/-- A fixed metadata object used for concrete inputs. -/
def someMeta : Meta := { title := "t", source := "s", snippet := "sn" }

/-- A one-record store with established dimension 1. -/
def oneRecStore : Store := [("a", { vector := [(1 : ℝ)], metadata := someMeta, timestamp := 0 })]

/-- Counterexample to claim C1 as stated: on a store whose established
dimension is 1, `upsertVector` of the 2-component vector `[1, 2]` does
not fail and does not leave the stored set unchanged — the record is
stored (the source has no dimension check in `upsertVector`). -/
theorem upsert_dimension_guard_cex :
    (upsertVector oneRecStore "b" [(1 : ℝ), 2] someMeta 5).2 ≠ oneRecStore := by
  intro h
  have hlen := congrArg List.length h
  simp [upsertVector, setKey, oneRecStore] at hlen

/-- Claim C1 (corrected): with a nonempty store whose records all have
dimension `d` and a query/vector of a different length, `search` fails
(with the wrapped `'Vectors must have same length'` error, the only
mismatch error the source raises) while reading the store only; `upsert`
performs no dimension check at all — it succeeds and stores the
mismatched record. -/
theorem dimension_guard_amended (st : Store) (d k : Nat) (q v : List ℝ) (id : String)
    (m : Meta) (now : Nat)
    (hne : st ≠ []) (hdim : ∀ p ∈ st, p.2.vector.length = d)
    (hq : q.length ≠ d) (hv : v.length ≠ d) :
    queryTopK st q k = .error ("Failed to query vectors: Vectors must have same length") ∧
    (id, { vector := v, metadata := m, timestamp := now }) ∈ (upsertVector st id v m now).2 := by
  constructor
  · match st, hne with
    | (pid, pv) :: rest, _ =>
      have hdim1 : pv.vector.length = d := hdim (pid, pv) (List.mem_cons_self _ rest)
      have hmm : cosineSimilarity q pv.vector = .error "Vectors must have same length" := by
        rw [cosineSimilarity, if_pos]
        rw [hdim1]
        exact hq
      rw [queryTopK, if_neg (by simp)]
      simp only [scoreAll, hmm]
      have happ : ("Failed to query vectors: " ++ "Vectors must have same length" : String) =
          "Failed to query vectors: Vectors must have same length" := by decide
      rw [happ]
  · exact setKey_mem st id _

/-- Witness for the amended C1 at the concrete one-record store of
dimension 1, query `[1, 2]`, upsert vector `[1, 2]`. -/
theorem dimension_guard_amended_witness :
    queryTopK oneRecStore [(1 : ℝ), 2] 3 =
      .error ("Failed to query vectors: Vectors must have same length") ∧
    ("b", { vector := [(1 : ℝ), 2], metadata := someMeta, timestamp := 5 }) ∈
      (upsertVector oneRecStore "b" [(1 : ℝ), 2] someMeta 5).2 := by
  refine dimension_guard_amended oneRecStore 1 3 [(1 : ℝ), 2] [(1 : ℝ), 2] "b" someMeta 5
    (by simp [oneRecStore]) ?_ (by simp) (by simp)
  intro p hp
  simp only [oneRecStore, List.mem_singleton] at hp
  rw [hp]
  rfl

/-- Claim C3 (confirmed): two successive upserts under the same id leave
the store holding exactly the record `(id, v2, p2)` at that id, every
other record untouched, and a subsequent search scores exactly one hit for
that id, carrying `v2`'s score and the payload `p2`. -/
theorem upsert_overwrite (st : Store) (id : String) (v1 v2 : List ℝ) (p1 p2 : Meta)
    (t1 t2 : Nat) (q : List ℝ) (hnodup : (st.map Prod.fst).Nodup) :
    ((upsertVector (upsertVector st id v1 p1 t1).2 id v2 p2 t2).2.filter
        (fun p => p.1 = id)) = [(id, { vector := v2, metadata := p2, timestamp := t2 })] ∧
    ((upsertVector (upsertVector st id v1 p1 t1).2 id v2 p2 t2).2.filter
        (fun p => !(p.1 = id : Bool))) = st.filter (fun p => !(p.1 = id : Bool)) ∧
    (scoredHitsList (upsertVector (upsertVector st id v1 p1 t1).2 id v2 p2 t2).2 q).filter
        (fun h => h.id = id) =
      [{ id := id, score := cosSimVal q v2, metadata := p2 }] := by
  have hst1 : (upsertVector st id v1 p1 t1).2 =
      setKey st id { vector := v1, metadata := p1, timestamp := t1 } := rfl
  have hst2 : (upsertVector (upsertVector st id v1 p1 t1).2 id v2 p2 t2).2 =
      setKey (setKey st id { vector := v1, metadata := p1, timestamp := t1 }) id
        { vector := v2, metadata := p2, timestamp := t2 } := rfl
  have hnodup1 : ((setKey st id
      { vector := v1, metadata := p1, timestamp := t1 }).map Prod.fst).Nodup :=
    setKey_keys_nodup st id _ hnodup
  refine ⟨?_, ?_, ?_⟩
  · rw [hst2, setKey_filter_eq _ id _ hnodup1]
  · rw [hst2, setKey_filter_ne, setKey_filter_ne]
  · rw [hst2, scoredHitsList_filter_id, setKey_filter_eq _ id _ hnodup1, List.map_singleton]

/-- Witness for C3 on the empty store with `v1 = [1]`, `v2 = [2]`. -/
theorem upsert_overwrite_witness :
    (((upsertVector (upsertVector ([] : Store) "a" [(1 : ℝ)] someMeta 0).2 "a"
        [(2 : ℝ)] someMeta 1).2.filter (fun p => p.1 = "a")) =
      [("a", { vector := [(2 : ℝ)], metadata := someMeta, timestamp := 1 })]) ∧
    (((upsertVector (upsertVector ([] : Store) "a" [(1 : ℝ)] someMeta 0).2 "a"
        [(2 : ℝ)] someMeta 1).2.filter (fun p => !(p.1 = "a" : Bool))) =
      ([] : Store).filter (fun p => !(p.1 = "a" : Bool))) ∧
    ((scoredHitsList (upsertVector (upsertVector ([] : Store) "a" [(1 : ℝ)] someMeta 0).2 "a"
        [(2 : ℝ)] someMeta 1).2 [(1 : ℝ)]).filter (fun h => h.id = "a") =
      [{ id := "a", score := cosSimVal [(1 : ℝ)] [(2 : ℝ)], metadata := someMeta }]) :=
  upsert_overwrite [] "a" [(1 : ℝ)] [(2 : ℝ)] someMeta someMeta 0 1 [(1 : ℝ)] (by simp)

/-! ### Claim C2: ranking, truncation and tie order of `queryTopK`

The JS sort is stable, so ties keep the order of the `similarities` array
— which is the order `client.keys('doc:*')` returned the keys in, an
order Redis leaves unspecified.  The claim's ties-in-insertion-order
clause therefore fails: a legal `KEYS` enumeration can present the keys in
any permutation of the keyspace. -/

lemma scoreAll_ok (q : List ℝ) (st : Store)
    (h : ∀ p ∈ st, p.2.vector.length = q.length) :
    scoreAll q st = .ok (scoredHitsList st q) := by
  induction st with
  | nil => rfl
  | cons p rest ih =>
    obtain ⟨pid, pv⟩ := p
    have hlen : q.length = pv.vector.length :=
      (h (pid, pv) (List.mem_cons_self _ rest)).symm
    rw [scoreAll, cosineSimilarity_ok q pv.vector hlen,
      ih (fun r hr => h r (List.mem_cons_of_mem _ hr))]
    rfl

/-- Inserting an element whose score is not `s` does not disturb the
score-`s` records; inserting one whose score is `s` prepends it to them
(stability of one `orderedInsert` step). -/
lemma orderedInsert_filter_eqScore (x : Hit) (l : List Hit) (s : ℝ) :
    (List.orderedInsert hitDescOrder x l).filter (fun h => h.score = s) =
      if x.score = s then x :: l.filter (fun h => h.score = s)
      else l.filter (fun h => h.score = s) := by
  induction l with
  | nil =>
    rw [List.orderedInsert_nil]
    by_cases hx : x.score = s <;> simp [List.filter_cons, hx]
  | cons y ys ih =>
    rw [List.orderedInsert]
    by_cases hle : hitDescOrder x y
    · rw [if_pos hle]
      by_cases hx : x.score = s <;> simp [List.filter_cons, hx]
    · rw [if_neg hle]
      have hlt : x.score < y.score := lt_of_not_le hle
      by_cases hx : x.score = s
      · have hy : ¬ y.score = s := by
          intro hys
          rw [hx, hys] at hlt
          exact lt_irrefl s hlt
        simp [List.filter_cons, hx, hy, ih]
      · by_cases hy : y.score = s <;> simp [List.filter_cons, hx, hy, ih]

/-- Stability of the stable descending sort: for each score value, the
sorted list carries exactly the input's records of that score, in input
order. -/
lemma insertionSort_filter_eqScore (l : List Hit) (s : ℝ) :
    (l.insertionSort hitDescOrder).filter (fun h => h.score = s) =
      l.filter (fun h => h.score = s) := by
  induction l with
  | nil => rfl
  | cons x xs ih =>
    rw [List.insertionSort, orderedInsert_filter_eqScore, List.filter_cons]
    by_cases hx : x.score = s
    · rw [if_pos hx, if_pos (by simpa using hx), ih]
    · rw [if_neg hx, if_neg (by simpa using hx), ih]

/-- The keyspace produced by inserting `"a"` and then `"b"`, both with
vector `[1]`. -/
def abStore : Store :=
  (upsertVector (upsertVector ([] : Store) "a" [(1 : ℝ)] someMeta 0).2
    "b" [(1 : ℝ)] someMeta 1).2

/-- One enumeration `client.keys('doc:*')` may legally return for
`abStore`: the reverse of the insertion order. -/
def abEnumRev : List (String × StoredVal) :=
  [("b", { vector := [(1 : ℝ)], metadata := someMeta, timestamp := 1 }),
   ("a", { vector := [(1 : ℝ)], metadata := someMeta, timestamp := 0 })]

/-- The two (equal-score) hits of `abStore` against the query `[1]`. -/
noncomputable def tieHitA : Hit :=
  { id := "a", score := cosSimVal [(1 : ℝ)] [(1 : ℝ)], metadata := someMeta }

/-- See `tieHitA`. -/
noncomputable def tieHitB : Hit :=
  { id := "b", score := cosSimVal [(1 : ℝ)] [(1 : ℝ)], metadata := someMeta }

/-- Counterexample to claim C2 as stated: `"a"` is inserted before `"b"`
and the two records score identically against the query `[1]`, yet under
the legal `KEYS` enumeration `abEnumRev` (a permutation of the keyspace —
all Redis guarantees) the search returns the ids in order `["b", "a"]`,
not the insertion order `["a", "b"]`: the stable sort preserves the
enumeration order among ties, and that order is not insertion order. -/
theorem queryTopK_tie_order_cex :
    abStore.map Prod.fst = ["a", "b"] ∧
    abEnumRev.Perm abStore ∧
    queryTopK abEnumRev [(1 : ℝ)] 3 = .ok [tieHitB, tieHitA] ∧
    tieHitB.score = tieHitA.score ∧
    [tieHitB, tieHitA].map Hit.id ≠ ["a", "b"] := by
  refine ⟨rfl, ?_, ?_, rfl, by simp [tieHitA, tieHitB]⟩
  · have habs : abStore =
        [("a", { vector := [(1 : ℝ)], metadata := someMeta, timestamp := 0 }),
         ("b", { vector := [(1 : ℝ)], metadata := someMeta, timestamp := 1 })] := rfl
    rw [habs, abEnumRev]
    exact List.Perm.swap _ _ _
  · have hdim : ∀ p ∈ abEnumRev, p.2.vector.length = ([(1 : ℝ)]).length := by
      intro p hp
      rcases List.mem_cons.mp hp with rfl | hp
      · rfl
      · rcases List.mem_cons.mp hp with rfl | hp
        · rfl
        · cases hp
    rw [queryTopK, if_neg (by simp [abEnumRev]), scoreAll_ok _ _ hdim]
    have hscored : scoredHitsList abEnumRev [(1 : ℝ)] = [tieHitB, tieHitA] := rfl
    rw [hscored]
    have hsingle : ([tieHitA].insertionSort hitDescOrder) = [tieHitA] := rfl
    have hsort : ([tieHitB, tieHitA].insertionSort hitDescOrder) = [tieHitB, tieHitA] := by
      show List.orderedInsert hitDescOrder tieHitB ([tieHitA].insertionSort hitDescOrder) =
        [tieHitB, tieHitA]
      rw [hsingle]
      exact List.orderedInsert_of_le hitDescOrder [] (le_refl tieHitA.score)
    show Except.ok (([tieHitB, tieHitA].insertionSort hitDescOrder).take 3) =
      Except.ok [tieHitB, tieHitA]
    rw [hsort]
    rfl

/-- Claim C2 (corrected): for every enumeration of the keyspace that
`client.keys('doc:*')` may return — any permutation of the stored
records, since Redis `KEYS` guarantees no order — search succeeds and
returns the stored records sorted descending by score, truncated to the
first `k` entries: the result length is at most `k`, it is pairwise
descending, the sorted list is a permutation of the stored records
scored, and for every score value the result's records of that score form
a prefix of the records of that score *in the enumeration's order*: ties
follow the `KEYS` enumeration order, which the program does not guarantee
to be the insertion order. -/
theorem queryTopK_ranking_amended (st : Store) (enum : List (String × StoredVal))
    (q : List ℝ) (k d : Nat) (hperm : enum.Perm st)
    (hq : q.length = d) (hst : ∀ p ∈ st, p.2.vector.length = d) :
    queryTopK enum q k =
      .ok (((scoredHitsList enum q).insertionSort hitDescOrder).take k) ∧
    ((scoredHitsList enum q).insertionSort hitDescOrder).Perm (scoredHitsList st q) ∧
    (((scoredHitsList enum q).insertionSort hitDescOrder).take k).length ≤ k ∧
    (((scoredHitsList enum q).insertionSort hitDescOrder).take k).Pairwise hitDescOrder ∧
    ∀ s : ℝ,
      ((((scoredHitsList enum q).insertionSort hitDescOrder).take k).filter
        (fun h => h.score = s)) <+:
      ((scoredHitsList enum q).filter (fun h => h.score = s)) := by
  have henum : ∀ p ∈ enum, p.2.vector.length = d :=
    fun p hp => hst p (hperm.mem_iff.mp hp)
  refine ⟨?_, ?_, ?_, ?_, ?_⟩
  · rw [queryTopK]
    by_cases hemp : enum = []
    · subst hemp
      simp [scoredHitsList, List.insertionSort]
    · rw [if_neg (by simpa using hemp),
        scoreAll_ok q enum (fun p hp => by rw [henum p hp, hq])]
  · exact (List.perm_insertionSort hitDescOrder _).trans (hperm.map _)
  · rw [List.length_take]
    exact min_le_left _ _
  · exact (List.sorted_insertionSort hitDescOrder (scoredHitsList enum q)).sublist
      (List.take_sublist _ _)
  · intro s
    have h1 : ((((scoredHitsList enum q).insertionSort hitDescOrder).take k).filter
        (fun h => h.score = s)) <+:
        (((scoredHitsList enum q).insertionSort hitDescOrder).filter
          (fun h => h.score = s)) :=
      (List.take_prefix k _).filter _
    rwa [insertionSort_filter_eqScore] at h1

/-- Witness for the amended C2: the one-record store enumerated in its own
order (the identity permutation). -/
theorem queryTopK_ranking_amended_witness :
    queryTopK oneRecStore [(1 : ℝ)] 3 =
      .ok (((scoredHitsList oneRecStore [(1 : ℝ)]).insertionSort hitDescOrder).take 3) ∧
    ((scoredHitsList oneRecStore [(1 : ℝ)]).insertionSort hitDescOrder).Perm
      (scoredHitsList oneRecStore [(1 : ℝ)]) ∧
    (((scoredHitsList oneRecStore [(1 : ℝ)]).insertionSort hitDescOrder).take 3).length ≤ 3 ∧
    (((scoredHitsList oneRecStore [(1 : ℝ)]).insertionSort hitDescOrder).take 3).Pairwise
      hitDescOrder ∧
    ∀ s : ℝ,
      ((((scoredHitsList oneRecStore [(1 : ℝ)]).insertionSort hitDescOrder).take 3).filter
        (fun h => h.score = s)) <+:
      ((scoredHitsList oneRecStore [(1 : ℝ)]).filter (fun h => h.score = s)) := by
  refine queryTopK_ranking_amended oneRecStore oneRecStore [(1 : ℝ)] 3 1
    (List.Perm.refl _) rfl ?_
  intro p hp
  simp only [oneRecStore, List.mem_singleton] at hp
  rw [hp]
  rfl

/-! ### Claims C4 and C5: the query pipeline -/

/-- Claim C4 (confirmed): when search returns a nonempty `hits`, the
pipeline answers from exactly one context per hit — the loop pushes once
per iteration on both the success and the `catch` path — so a
`DocumentStore.get` failure on any hit never aborts the query; the i-th
context carries the i-th hit's score (the descending order is preserved),
and a failed hit's context is built from its stored payload snippet and
title. -/
theorem queryKnowledge_perHit_fallback (st : Store) (embedF : String → List ℝ)
    (getDoc : String → Option SanityDoc) (genF : String → String) (fmt : ℝ → String)
    (question : String) (topK : Nat) (hits : List Hit)
    (hq : queryTopK st (embedF question) topK = .ok hits) (hne : hits ≠ []) :
    queryKnowledge st embedF getDoc genF fmt question topK =
      .ok { answer := genF (buildPrompt fmt question (buildContexts getDoc hits))
            contexts := (buildContexts getDoc hits).map
              (fun c => { text := c.text, score := c.score }) } ∧
    (buildContexts getDoc hits).length = hits.length ∧
    (∀ (i : Nat) (h : Hit), hits[i]? = some h →
      ((buildContexts getDoc hits)[i]?).map Context.score = some h.score) ∧
    (∀ (i : Nat) (h : Hit), hits[i]? = some h → getDoc h.id = none →
      (buildContexts getDoc hits)[i]? =
        some { text := jsOr h.metadata.snippet "Content unavailable"
               score := h.score
               title := jsOr h.metadata.title "Untitled" }) := by
  refine ⟨?_, List.length_map _ _, ?_, ?_⟩
  · rw [queryKnowledge]
    simp only [hq]
    rw [if_neg (by simpa using hne)]
  · intro i h hi
    rw [buildContexts, List.getElem?_map, hi]
    cases hdoc : getDoc h.id <;> simp [buildContext, hdoc]
  · intro i h hi hdoc
    rw [buildContexts, List.getElem?_map, hi]
    simp [buildContext, hdoc]

/-- The single hit produced by searching the one-record store with `[1]`. -/
noncomputable def oneHitList : List Hit :=
  [{ id := "a", score := cosSimVal [(1 : ℝ)] [(1 : ℝ)], metadata := someMeta }]

/-- Witness for C4: a one-record store, a lookup that always fails, and
the single resulting hit. -/
theorem queryKnowledge_perHit_fallback_witness :
    queryKnowledge oneRecStore (fun _ => [(1 : ℝ)]) (fun _ => none) (fun p => p)
        (fun _ => "0.000") "q" 3 =
      .ok { answer := buildPrompt (fun _ => "0.000") "q"
              (buildContexts (fun _ => none) oneHitList)
            contexts := (buildContexts (fun _ => none) oneHitList).map
              (fun c => { text := c.text, score := c.score }) } ∧
    (buildContexts (fun _ => none) oneHitList).length = oneHitList.length ∧
    (∀ (i : Nat) (h : Hit), oneHitList[i]? = some h →
      ((buildContexts (fun _ => none) oneHitList)[i]?).map Context.score = some h.score) ∧
    (∀ (i : Nat) (h : Hit), oneHitList[i]? = some h →
      (fun (_ : String) => (none : Option SanityDoc)) h.id = none →
      (buildContexts (fun _ => none) oneHitList)[i]? =
        some { text := jsOr h.metadata.snippet "Content unavailable"
               score := h.score
               title := jsOr h.metadata.title "Untitled" }) := by
  refine queryKnowledge_perHit_fallback oneRecStore (fun _ => [(1 : ℝ)]) (fun _ => none)
    (fun p => p) (fun _ => "0.000") "q" 3 oneHitList ?_ (by simp [oneHitList])
  have hlen : ∀ p ∈ oneRecStore, p.2.vector.length = [(1 : ℝ)].length := by
    intro p hp
    simp only [oneRecStore, List.mem_singleton] at hp
    rw [hp]
  rw [queryTopK, if_neg (by simp [oneRecStore]), scoreAll_ok _ _ hlen]
  rfl

/-- Claim C5 (confirmed): when search returns zero hits — in particular on
the empty index — the pipeline returns the fixed "no relevant documents"
answer with an empty context list as a normal (`ok`) result, and the
result does not depend on the DocumentStore lookup or the generation
function: neither is called after the search. -/
theorem queryKnowledge_noHits (st : Store) (embedF : String → List ℝ)
    (getDoc : String → Option SanityDoc) (genF : String → String) (fmt : ℝ → String)
    (question : String) (topK : Nat)
    (h : queryTopK st (embedF question) topK = .ok []) :
    queryKnowledge st embedF getDoc genF fmt question topK =
      .ok { answer := "No relevant documents found. Please ingest some documents first."
            contexts := [] } ∧
    (∀ (getDoc' : String → Option SanityDoc) (genF' : String → String),
      queryKnowledge st embedF getDoc' genF' fmt question topK =
        queryKnowledge st embedF getDoc genF fmt question topK) ∧
    queryTopK ([] : Store) (embedF question) topK = .ok [] := by
  have hfix : ∀ (gd : String → Option SanityDoc) (gf : String → String),
      queryKnowledge st embedF gd gf fmt question topK =
        .ok { answer := "No relevant documents found. Please ingest some documents first."
              contexts := [] } := by
    intro gd gf
    rw [queryKnowledge]
    simp only [h]
    simp
  refine ⟨hfix getDoc genF, ?_, rfl⟩
  intro gd' gf'
  rw [hfix gd' gf', hfix getDoc genF]

/-- Witness for C5 on the empty store. -/
theorem queryKnowledge_noHits_witness :
    queryKnowledge ([] : Store) (fun _ => [(1 : ℝ)]) (fun _ => none) (fun p => p)
        (fun _ => "0.000") "q" 3 =
      .ok { answer := "No relevant documents found. Please ingest some documents first."
            contexts := [] } ∧
    (∀ (getDoc' : String → Option SanityDoc) (genF' : String → String),
      queryKnowledge ([] : Store) (fun _ => [(1 : ℝ)]) getDoc' genF' (fun _ => "0.000") "q" 3 =
        queryKnowledge ([] : Store) (fun _ => [(1 : ℝ)]) (fun _ => none) (fun p => p)
          (fun _ => "0.000") "q" 3) ∧
    queryTopK ([] : Store) [(1 : ℝ)] 3 = .ok [] :=
  queryKnowledge_noHits [] (fun _ => [(1 : ℝ)]) (fun _ => none) (fun p => p)
    (fun _ => "0.000") "q" 3 rfl

/-! ### Claims C6 and C7: the ingest pipeline and its HTTP guard -/

/-- A deterministic in-memory DocumentStore `create`, used for concrete
runs: the fresh id is derived from the store size. -/
def mockSave : DocIn → DocStore → Except String (String × DocStore) :=
  fun d ds => .ok ("d" ++ toString ds.length, ds ++ [("d" ++ toString ds.length, d)])

/-- Counterexample to claim C6 as stated: the pasted text `""` is empty
after trimming, yet the handler fails with `'No file or text provided'`
(the empty string is falsy, so the `req.body.text` branch is never
taken), not with the `'Empty content'` error. -/
theorem empty_content_cex :
    jsTrim "" = "" ∧
    (ingestHandler mockSave (fun _ => [(1 : ℝ)]) 0 ⟨[], []⟩ (.textBody "")).1 =
      .badRequest "No file or text provided" ∧
    (HttpResp.badRequest "No file or text provided" ≠ HttpResp.badRequest "Empty content") :=
  ⟨rfl, rfl, by decide⟩

/-- Claim C6 (corrected): a text that is empty after trimming is rejected
before any collaborator call, with the handler state unchanged. The error
is `'Empty content'` on the file path and on the pasted-text path for a
nonempty text; the pasted empty string itself is falsy in JavaScript and
is rejected earlier as `'No file or text provided'`.  The response and
state are the same for every `saveF`/`embedF`, so no collaborator runs. -/
theorem empty_content_amended (saveF : DocIn → DocStore → Except String (String × DocStore))
    (embedF : String → List ℝ) (now : Nat) (st : SysState)
    (name mt text : String)
    (hmt : mt = "application/pdf" ∨ mt = "text/plain") (htrim : jsTrim text = "") :
    ingestHandler saveF embedF now st (.file name mt text) =
      (.badRequest "Empty content", st) ∧
    (text ≠ "" → ingestHandler saveF embedF now st (.textBody text) =
      (.badRequest "Empty content", st)) ∧
    ingestHandler saveF embedF now st (.textBody "") =
      (.badRequest "No file or text provided", st) := by
  refine ⟨?_, ?_, ?_⟩
  · rw [ingestHandler, if_pos hmt, handleIngestText, if_pos htrim]
  · intro hne
    rw [ingestHandler, if_neg hne, handleIngestText, if_pos htrim]
  · rw [ingestHandler, if_pos rfl]

/-- Witness for the amended C6 at the whitespace-only text `" "`. -/
theorem empty_content_amended_witness :
    ingestHandler mockSave (fun _ => [(1 : ℝ)]) 0 ⟨[], []⟩ (.file "f.txt" "text/plain" " ") =
      (.badRequest "Empty content", (⟨[], []⟩ : SysState)) ∧
    (" " ≠ "" → ingestHandler mockSave (fun _ => [(1 : ℝ)]) 0 ⟨[], []⟩ (.textBody " ") =
      (.badRequest "Empty content", (⟨[], []⟩ : SysState))) ∧
    ingestHandler mockSave (fun _ => [(1 : ℝ)]) 0 ⟨[], []⟩ (.textBody "") =
      (.badRequest "No file or text provided", (⟨[], []⟩ : SysState)) :=
  empty_content_amended mockSave (fun _ => [(1 : ℝ)]) 0 ⟨[], []⟩ "f.txt" "text/plain" " "
    (Or.inr rfl) (by decide)

/-- Claim C7 (confirmed): on a successful ingest the collaborator call
order is exactly save-then-embed-then-upsert, the upsert key (and the
returned `redisId`) is the `documentId` the DocumentStore returned, and —
provided `create` extends the document store with the returned id — the
vector-ids-have-documents invariant holds both in the intermediate state
between the save and the upsert and in the final state. -/
theorem ingest_persist_before_index
    (saveF : DocIn → DocStore → Except String (String × DocStore))
    (embedF : String → List ℝ) (now : Nat) (st : SysState) (text source : String)
    (res : IngestResult) (st' : SysState) (log : List Event)
    (hsave : ∀ d ds sid ds', saveF d ds = .ok (sid, ds') →
      sid ∈ ds'.map Prod.fst ∧ ∀ i ∈ ds.map Prod.fst, i ∈ ds'.map Prod.fst)
    (hinv : ∀ i ∈ st.vecs.map Prod.fst, i ∈ st.docs.map Prod.fst)
    (hrun : ingestDocument saveF embedF now st text source = .ok (res, st', log)) :
    log = [.saveEv res.sanityId, .embedEv text, .upsertEv res.sanityId (embedF text)] ∧
    res.redisId = res.sanityId ∧
    res.sanityId ∈ st'.docs.map Prod.fst ∧
    (∀ i ∈ st.vecs.map Prod.fst, i ∈ st'.docs.map Prod.fst) ∧
    (∀ i ∈ st'.vecs.map Prod.fst, i ∈ st'.docs.map Prod.fst) := by
  rw [ingestDocument] at hrun
  cases hsf : saveF ⟨derivedTitle text, derivedSnippet text, text, source⟩ st.docs with
  | error e =>
    rw [hsf] at hrun
    exact absurd hrun (by simp)
  | ok p =>
    obtain ⟨sid, docs'⟩ := p
    rw [hsf] at hrun
    simp only [Except.ok.injEq, Prod.mk.injEq] at hrun
    obtain ⟨hres, hst', hlog⟩ := hrun
    obtain ⟨hsid, hmono⟩ := hsave _ _ _ _ hsf
    have hresid : res.sanityId = sid := by rw [← hres]
    have hdocs : st'.docs = docs' := by rw [← hst']
    have hvecs : st'.vecs = setKey st.vecs sid
        ⟨embedF text, ⟨derivedTitle text, source, derivedSnippet text⟩, now⟩ := by
      rw [← hst']
      rfl
    refine ⟨?_, ?_, ?_, ?_, ?_⟩
    · rw [← hlog, hresid]
    · rw [← hres]
      rfl
    · rw [hresid, hdocs]
      exact hsid
    · intro i hi
      rw [hdocs]
      exact hmono i (hinv i hi)
    · intro i hi
      rw [hvecs] at hi
      rw [hdocs]
      rcases setKey_keys_subset _ _ _ _ hi with hcase | hcase
      · rw [hcase]
        exact hsid
      · exact hmono i (hinv i hcase)

/-- Witness for C7: a concrete successful ingest of `"Hello"` into empty
collaborator state through the deterministic mock DocumentStore. -/
theorem ingest_persist_before_index_witness :
    [Event.saveEv "d0", Event.embedEv "Hello", Event.upsertEv "d0" [(1 : ℝ)]] =
      [Event.saveEv (IngestResult.sanityId ⟨"d0", "d0", "Hello"⟩), Event.embedEv "Hello",
        Event.upsertEv (IngestResult.sanityId ⟨"d0", "d0", "Hello"⟩)
          ((fun _ => [(1 : ℝ)]) "Hello")] ∧
    (IngestResult.redisId ⟨"d0", "d0", "Hello"⟩) = (IngestResult.sanityId ⟨"d0", "d0", "Hello"⟩) ∧
    (IngestResult.sanityId ⟨"d0", "d0", "Hello"⟩) ∈
      (SysState.docs ⟨[("d0", ⟨"Hello", "Hello", "Hello", "src"⟩)],
        [("d0", ⟨[(1 : ℝ)], ⟨"Hello", "src", "Hello"⟩, 7⟩)]⟩).map Prod.fst ∧
    (∀ i ∈ (SysState.vecs ⟨[], []⟩).map Prod.fst,
      i ∈ (SysState.docs ⟨[("d0", ⟨"Hello", "Hello", "Hello", "src"⟩)],
        [("d0", ⟨[(1 : ℝ)], ⟨"Hello", "src", "Hello"⟩, 7⟩)]⟩).map Prod.fst) ∧
    (∀ i ∈ (SysState.vecs ⟨[("d0", ⟨"Hello", "Hello", "Hello", "src"⟩)],
        [("d0", ⟨[(1 : ℝ)], ⟨"Hello", "src", "Hello"⟩, 7⟩)]⟩).map Prod.fst,
      i ∈ (SysState.docs ⟨[("d0", ⟨"Hello", "Hello", "Hello", "src"⟩)],
        [("d0", ⟨[(1 : ℝ)], ⟨"Hello", "src", "Hello"⟩, 7⟩)]⟩).map Prod.fst) := by
  refine ingest_persist_before_index mockSave (fun _ => [(1 : ℝ)]) 7 ⟨[], []⟩ "Hello" "src"
    ⟨"d0", "d0", "Hello"⟩
    ⟨[("d0", ⟨"Hello", "Hello", "Hello", "src"⟩)],
      [("d0", ⟨[(1 : ℝ)], ⟨"Hello", "src", "Hello"⟩, 7⟩)]⟩
    [Event.saveEv "d0", Event.embedEv "Hello", Event.upsertEv "d0" [(1 : ℝ)]]
    ?_ (by simp) ?_
  · intro d ds sid ds' hok
    simp only [mockSave, Except.ok.injEq, Prod.mk.injEq] at hok
    obtain ⟨h1, h2⟩ := hok
    constructor
    · rw [← h1, ← h2]
      simp
    · intro i hi
      rw [← h2]
      simp only [List.map_append, List.mem_append]
      exact Or.inl hi
  · rfl

/-! ### Claim C10: the mock embedding -/

lemma sumSquares_eq (v : List ℝ) : sumSquares v = (v.map (fun x => x * x)).sum := by
  have gen : ∀ (w : List ℝ) (init : ℝ),
      w.foldl (fun sum val => sum + val * val) init = init + (w.map (fun x => x * x)).sum := by
    intro w
    induction w with
    | nil => intro init; simp
    | cons x xs ih =>
      intro init
      rw [List.foldl_cons, ih, List.map_cons, List.sum_cons]
      ring
  have h := gen v 0
  rw [sumSquares, h, zero_add]

/-- No component of the raw mock vector vanishes: `sin n + cos (7n/10) = 0`
for an integer `n` would force `π` to be rational. -/
lemma sin_add_cos_mul_ne_zero (n : ℤ) :
    Real.sin ((n : ℝ)) + Real.cos ((n : ℝ) * (7 / 10)) ≠ 0 := by
  intro hzero
  have h1 : Real.cos ((n : ℝ) * (7 / 10)) + Real.cos (Real.pi / 2 - (n : ℝ)) = 0 := by
    rw [Real.cos_pi_div_two_sub]
    linarith
  rw [Real.cos_add_cos] at h1
  have hpi := irrational_pi
  rcases mul_eq_zero.mp h1 with h2 | h3
  · rcases mul_eq_zero.mp h2 with h4 | h4
    · norm_num at h4
    · rcases Real.cos_eq_zero_iff.mp h4 with ⟨k, hk⟩
      have hb : ((5 * (4 * k + 1) : ℤ) : ℝ) ≠ 0 := by
        exact_mod_cast (by omega : (5 * (4 * k + 1) : ℤ) ≠ 0)
      have heq : Real.pi = ((-3 * n : ℤ) : ℝ) / ((5 * (4 * k + 1) : ℤ) : ℝ) := by
        rw [eq_div_iff hb]
        push_cast
        linear_combination (-20 : ℝ) * hk
      exact (irrational_iff_ne_rational Real.pi).mp hpi (-3 * n) (5 * (4 * k + 1)) heq
  · rcases Real.cos_eq_zero_iff.mp h3 with ⟨k, hk⟩
    have hb : ((5 * (4 * k + 3) : ℤ) : ℝ) ≠ 0 := by
      exact_mod_cast (by omega : (5 * (4 * k + 3) : ℤ) ≠ 0)
    have heq : Real.pi = ((17 * n : ℤ) : ℝ) / ((5 * (4 * k + 3) : ℤ) : ℝ) := by
      rw [eq_div_iff hb]
      push_cast
      linear_combination (-20 : ℝ) * hk
    exact (irrational_iff_ne_rational Real.pi).mp hpi (17 * n) (5 * (4 * k + 3)) heq

lemma rawMockComponent_ne_zero (h : ℤ) (i : Nat) : rawMockComponent h i ≠ 0 := by
  intro hz
  apply sin_add_cos_mul_ne_zero (h + i)
  rw [rawMockComponent] at hz
  push_cast
  nlinarith [hz]

lemma sum_pos_of_mem_nonneg (l : List ℝ) (hall : ∀ x ∈ l, 0 ≤ x) (x : ℝ)
    (hx : x ∈ l) (hxpos : 0 < x) : 0 < l.sum := by
  induction l with
  | nil => cases hx
  | cons y ys ih =>
    rw [List.sum_cons]
    rcases List.mem_cons.mp hx with rfl | hmem
    · have : 0 ≤ ys.sum :=
        List.sum_nonneg (fun z hz => hall z (List.mem_cons_of_mem _ hz))
      linarith
    · have hy : 0 ≤ y := hall y (List.mem_cons_self _ _)
      have := ih (fun z hz => hall z (List.mem_cons_of_mem _ hz)) hmem
      linarith

lemma sumSquares_rawMockVector_pos (text : String) :
    0 < sumSquares (rawMockVector text) := by
  rw [sumSquares_eq]
  refine sum_pos_of_mem_nonneg _ ?_
    (rawMockComponent (jsHash text) 0 * rawMockComponent (jsHash text) 0) ?_ ?_
  · intro x hx
    rcases List.mem_map.mp hx with ⟨y, _, rfl⟩
    exact mul_self_nonneg y
  · refine List.mem_map.mpr ⟨rawMockComponent (jsHash text) 0, ?_, rfl⟩
    rw [rawMockVector]
    exact List.mem_map.mpr ⟨0, by simp, rfl⟩
  · exact mul_self_pos.mpr (rawMockComponent_ne_zero (jsHash text) 0)

lemma sum_map_div_sq (v : List ℝ) (m : ℝ) :
    ((v.map (fun x => x / m)).map (fun x => x * x)).sum =
      ((v.map (fun x => x * x)).sum) / (m * m) := by
  induction v with
  | nil => simp
  | cons x xs ih =>
    rw [List.map_cons, List.map_cons, List.sum_cons, List.map_cons, List.sum_cons, ih,
      div_mul_div_comm, add_div]

lemma generateMockEmbedding_norm_one (text : String) :
    euclidNorm (generateMockEmbedding text) = 1 := by
  have hS : 0 < sumSquares (rawMockVector text) := sumSquares_rawMockVector_pos text
  have hm : Real.sqrt (sumSquares (rawMockVector text)) *
      Real.sqrt (sumSquares (rawMockVector text)) = sumSquares (rawMockVector text) :=
    Real.mul_self_sqrt hS.le
  rw [euclidNorm, generateMockEmbedding]
  rw [sum_map_div_sq, hm, ← sumSquares_eq, div_self (ne_of_gt hS), Real.sqrt_one]

/-- Claim C10 (confirmed): every mock-mode embedding — produced when no
API key is configured or after a provider failure — has exactly 384
components and Euclidean norm 1, and the cosine similarity of any two mock
embeddings is a well-defined score in `[-1, 1]`. -/
theorem mock_embedding_spec (text t1 t2 : String) :
    (generateMockEmbedding text).length = 384 ∧
    euclidNorm (generateMockEmbedding text) = 1 ∧
    createEmbedding .noApiKey text = generateMockEmbedding text ∧
    createEmbedding .apiFailed text = generateMockEmbedding text ∧
    cosineSimilarity (generateMockEmbedding t1) (generateMockEmbedding t2) =
      .ok (cosSimVal (generateMockEmbedding t1) (generateMockEmbedding t2)) ∧
    cosSimVal (generateMockEmbedding t1) (generateMockEmbedding t2) ∈
      Set.Icc (-1 : ℝ) 1 := by
  have hlen : ∀ s : String, (generateMockEmbedding s).length = 384 := by
    intro s
    rw [generateMockEmbedding]
    simp [rawMockVector]
  refine ⟨hlen text, generateMockEmbedding_norm_one text, rfl, rfl, ?_, ?_⟩
  · exact cosineSimilarity_ok _ _ (by rw [hlen t1, hlen t2])
  · exact cosSimVal_mem_Icc _ _

end QuickResearch
